import Mathlib

/-!
File lock handle (`lock_linux.go`).

A shallow embedding of the POSIX strategy of the lock package: the `flock`
struct, its constructor `NewFlock`, the accessors `Path`, `Locked`, `String`
and the two state-changing methods `Lock` and `Unlock` (with the helper
`setFh`).

The operating system is an explicit parameter: an `OS σ` packs the four
services the code uses (`filepath.Abs`, `os.OpenFile`, `syscall.Flock`,
`(*os.File).Close`) as functions on a kernel state `σ`.  Every call that the
code makes to `os.OpenFile`, `syscall.Flock` or `Close` is appended, with its
result, to a call log carried next to the kernel state, so that statements
such as "performs no OS call" or "exactly one lock attempt" are statements
about that log.

The in-process `sync.RWMutex` is not part of the state: the development is
about sequential call sequences, in which `mu.Lock(); defer mu.Unlock()` has
no observable effect.
-/

namespace FileLock

/-! ## Go values -/

/-- Non-nil values of Go's `error` interface that the package can return. -/
inductive Error where
  /-- the package sentinel returned by a release without a lock -/
  | AlreadyUnlocked
  /-- a `syscall.Errno` as returned by `syscall.Flock` or `Close` -/
  | Errno (code : Nat)
  /-- an `*os.PathError` as returned by `os.OpenFile` -/
  | PathError (op : String) (path : String) (code : Nat)
  deriving DecidableEq, Repr

/-- Go's `error`: `none` is the nil error. -/
abbrev error := Option Error

/-- Modelled from the spec: the sentinel `ErrUnlock` is declared in a file of
the package that is not among the sources; the spec calls it the "already
unlocked" error returned by a release without a lock, a non-nil error. -/
def ErrUnlock : error := some Error.AlreadyUnlocked

/-- An open `os.File`; only its descriptor matters here. -/
structure File where
  fd : Int
  deriving DecidableEq, Repr

/-- The call `(*os.File).Fd()` followed by the conversion `int(...)`: the descriptor,
and `-1` (that is `int(^uintptr(0))`) on a nil receiver. -/
def Fd : Option File → Int
  | some fh => fh.fd
  | none => -1

/-- The constant `syscall.LOCK_EX`. -/
def LOCK_EX : Nat := 2
/-- The constant `syscall.LOCK_NB`. -/
def LOCK_NB : Nat := 4
/-- The constant `syscall.LOCK_UN`. -/
def LOCK_UN : Nat := 8
/-- The constant `os.O_RDWR`. -/
def O_RDWR : Nat := 2
/-- The constant `os.O_CREATE`. -/
def O_CREATE : Nat := 64
/-- The constant `os.O_TRUNC`. -/
def O_TRUNC : Nat := 512

/-! ## The operating system -/

/-- The services of the operating system used by the package, over a kernel
state `σ`. -/
structure OS (σ : Type) where
  /-- The call `filepath.Abs(path)`: reads the state, returns the pair `(abs, err)` -/
  abs : String → σ → String × error
  /-- The call `os.OpenFile(name, flag, perm)`. -/
  openFile : String → Nat → Nat → σ → Except Error File × σ
  /-- The call `syscall.Flock(fd, how)`. -/
  flock : Int → Nat → σ → error × σ
  /-- The call `(*os.File).Close()` on the file with that descriptor -/
  close : Int → σ → error × σ

/-- One logged call to the operating system, with its result. -/
inductive Call where
  | OpenFile (name : String) (flag : Nat) (perm : Nat) (res : Except Error File)
  | Flock (fd : Int) (how : Nat) (res : error)
  | Close (fd : Int) (res : error)

/-- The kernel state together with the log of the calls made so far. -/
structure World (σ : Type) where
  kernel : σ
  trace : List Call

/-- The call `os.OpenFile`, logged. -/
def osOpenFile {σ : Type} (os : OS σ) (name : String) (flag perm : Nat) (w : World σ) :
    Except Error File × World σ :=
  let r := os.openFile name flag perm w.kernel
  (r.1, { kernel := r.2, trace := w.trace ++ [Call.OpenFile name flag perm r.1] })

/-- The call `syscall.Flock`, logged. -/
def syscallFlock {σ : Type} (os : OS σ) (fd : Int) (how : Nat) (w : World σ) :
    error × World σ :=
  let r := os.flock fd how w.kernel
  (r.1, { kernel := r.2, trace := w.trace ++ [Call.Flock fd how r.1] })

/-- The call `Close`, logged. -/
def fileClose {σ : Type} (os : OS σ) (fd : Int) (w : World σ) : error × World σ :=
  let r := os.close fd w.kernel
  (r.1, { kernel := r.2, trace := w.trace ++ [Call.Close fd r.1] })

/-! ## The handle -/

/-- The struct `flock` (without its mutex). `fh = none` is the nil pointer. -/
structure flock where
  path : String
  absPath : String
  fh : Option File
  locked : Bool
  deriving DecidableEq, Repr

/-- The constructor `NewFlock(path)`: the error of `filepath.Abs` is dropped. -/
def NewFlock {σ : Type} (os : OS σ) (path : String) (w : World σ) : flock :=
  { path := path, absPath := (os.abs path w.kernel).1, fh := none, locked := false }

/-- The method `Path()`. -/
def flock.Path (f : flock) : String := f.path

/-- The method `Locked()`. -/
def flock.Locked (f : flock) : Bool := f.locked

/-- The method `String()`. -/
def flock.String (f : flock) : String :=
  if f.locked then "'" ++ f.path ++ "' locked" else "'" ++ f.path ++ "' unlock"

/-- The method `setFh()`: open the backing file and store the handle. -/
def flock.setFh {σ : Type} (os : OS σ) (f : flock) (w : World σ) : (error × flock) × World σ :=
  match osOpenFile os f.absPath (O_CREATE ||| O_TRUNC ||| O_RDWR) 0o600 w with
  | (Except.error err, w1) => ((some err, f), w1)
  | (Except.ok fh, w1) => ((none, { f with fh := some fh }), w1)

/-- The tail of `Lock()`: the lock attempt on the current handle. -/
def flock.lockAttempt {σ : Type} (os : OS σ) (f : flock) (w : World σ) : (error × flock) × World σ :=
  let r := syscallFlock os (Fd f.fh) (LOCK_EX ||| LOCK_NB) w
  ((r.1, { f with locked := r.1.isNone }), r.2)

/-- The method `Lock()`. -/
def flock.Lock {σ : Type} (os : OS σ) (f : flock) (w : World σ) : (error × flock) × World σ :=
  if f.locked then ((none, f), w)
  else if f.fh = none then
    match f.setFh os w with
    | ((some err, f1), w1) => ((some err, f1), w1)
    | ((none, f1), w1) => f1.lockAttempt os w1
  else f.lockAttempt os w

/-- The method `Unlock()`. -/
def flock.Unlock {σ : Type} (os : OS σ) (f : flock) (w : World σ) : (error × flock) × World σ :=
  if !f.locked || f.fh = none then ((ErrUnlock, f), w)
  else
    let r := syscallFlock os (Fd f.fh) LOCK_UN w
    match r.1 with
    | none =>
      let c := fileClose os (Fd f.fh) r.2
      ((none, { f with locked := false, fh := none }), c.2)
    | some err => ((some err, f), r.2)

/-! ## Call sequences -/

/-- The calls a client can make on a handle. -/
inductive Op where
  | Lock
  | Unlock
  | Locked
  | Path
  | String
  deriving DecidableEq, Repr

/-- One call on a handle: the handle and the world after it.  `Locked`, `Path`
and `String` only read the handle. -/
def step {σ : Type} (os : OS σ) (s : flock × World σ) (op : Op) : flock × World σ :=
  match op with
  | Op.Lock => ((s.1.Lock os s.2).1.2, (s.1.Lock os s.2).2)
  | Op.Unlock => ((s.1.Unlock os s.2).1.2, (s.1.Unlock os s.2).2)
  | Op.Locked => s
  | Op.Path => s
  | Op.String => s

/-- A sequence of calls on one handle, from left to right. -/
def run {σ : Type} (os : OS σ) (ops : List Op) (s : flock × World σ) : flock × World σ :=
  ops.foldl (step os) s

/-- Which of two handles a call is made on. -/
inductive Who where
  | A
  | B
  deriving DecidableEq, Repr

/-- Two handles living in the same world. -/
structure Pair (σ : Type) where
  A : flock
  B : flock
  w : World σ

/-- One call on one of the two handles. -/
def Pair.step {σ : Type} (os : OS σ) (s : Pair σ) (c : Who × Op) : Pair σ :=
  match c.1 with
  | Who.A => { s with A := (FileLock.step os (s.A, s.w) c.2).1, w := (FileLock.step os (s.A, s.w) c.2).2 }
  | Who.B => { s with B := (FileLock.step os (s.B, s.w) c.2).1, w := (FileLock.step os (s.B, s.w) c.2).2 }

/-- An interleaving of calls on the two handles, from left to right. -/
def Pair.run {σ : Type} (os : OS σ) (cs : List (Who × Op)) (s : Pair σ) : Pair σ :=
  cs.foldl (Pair.step os) s

/-! ## A kernel with exclusive advisory locks

A model of the kernel side of `flock(2)`: descriptors are handed out from a
counter, every open descriptor refers to one file (named by the path it was
opened with), and each file has at most one descriptor holding its exclusive
lock.  A non-blocking exclusive request on a file whose lock is held by another
descriptor fails with `EWOULDBLOCK`; unlocking and closing release the lock
held by that descriptor. -/

/-- The errno `ENOENT`. -/
def ENOENT : Nat := 2
/-- The errno `EBADF`. -/
def EBADF : Nat := 9
/-- The errno `EWOULDBLOCK`. -/
def EWOULDBLOCK : Nat := 11
/-- The errno `EINVAL`. -/
def EINVAL : Nat := 22

/-- The state of the model kernel. -/
structure Kernel where
  /-- the working directory; `none` when it cannot be determined -/
  cwd : Option String
  /-- the next descriptor to hand out -/
  nextFd : Nat
  /-- the file each open descriptor refers to -/
  files : Int → Option String
  /-- the descriptor holding the exclusive lock of each file -/
  holder : String → Option Int

/-- Absolute form of a path in the model: a path starting with a slash is kept, any
other is joined to the working directory, and without a working directory the
result is the empty string and an error. -/
def Kernel.abs (path : String) (k : Kernel) : String × error :=
  match path.data with
  | '/' :: _ => (path, none)
  | _ =>
    match k.cwd with
    | some d => (d ++ "/" ++ path, none)
    | none => ("", some (Error.Errno ENOENT))

/-- Opening a file in the model: the empty name fails, any other gets a new descriptor. -/
def Kernel.openFile (name : String) (_flag _perm : Nat) (k : Kernel) : Except Error File × Kernel :=
  if name = "" then (Except.error (Error.PathError "open" name ENOENT), k)
  else
    (Except.ok { fd := (k.nextFd : Int) },
      { k with
        nextFd := k.nextFd + 1
        files := fun d => if d = (k.nextFd : Int) then some name else k.files d })

/-- Locking in the model, for `LOCK_EX|LOCK_NB` and `LOCK_UN`. -/
def Kernel.flock (fd : Int) (how : Nat) (k : Kernel) : error × Kernel :=
  match k.files fd with
  | none => (some (Error.Errno EBADF), k)
  | some file =>
    if how = LOCK_EX ||| LOCK_NB then
      match k.holder file with
      | some h => if h = fd then (none, k) else (some (Error.Errno EWOULDBLOCK), k)
      | none => (none, { k with holder := fun p => if p = file then some fd else k.holder p })
    else if how = LOCK_UN then
      (none, { k with holder := fun p => if p = file ∧ k.holder p = some fd then none else k.holder p })
    else (some (Error.Errno EINVAL), k)

/-- Closing a descriptor in the model: it stops being open and loses its locks. -/
def Kernel.close (fd : Int) (k : Kernel) : error × Kernel :=
  match k.files fd with
  | none => (some (Error.Errno EBADF), k)
  | some _ =>
    (none,
      { k with
        files := fun d => if d = fd then none else k.files d
        holder := fun p => if k.holder p = some fd then none else k.holder p })

/-- The model kernel as an operating system. -/
def posix : OS Kernel :=
  { abs := Kernel.abs, openFile := Kernel.openFile, flock := Kernel.flock, close := Kernel.close }

/-- A kernel with no open descriptor and no lock held. -/
def Kernel.boot (cwd : Option String) : Kernel :=
  { cwd := cwd, nextFd := 3, files := fun _ => none, holder := fun _ => none }

/-- A world with an empty call log. -/
def World.init {σ : Type} (k : σ) : World σ := { kernel := k, trace := [] }

/-- An operating system in which every call succeeds, over a counter of descriptors. -/
def easy : OS Nat :=
  { abs := fun path _ => (path, none)
    openFile := fun _ _ _ n => (Except.ok { fd := (n : Int) }, n + 1)
    flock := fun _ _ n => (none, n)
    close := fun _ n => (none, n) }

/-- The world in which `Lock()` makes its lock attempt: the current one when the
backing file is already open, the one after `os.OpenFile` otherwise. -/
def lockWorld {σ : Type} (os : OS σ) (f : flock) (w : World σ) : World σ :=
  if f.fh = none then (osOpenFile os f.absPath (O_CREATE ||| O_TRUNC ||| O_RDWR) 0o600 w).2 else w

/-- Whether a logged call is a `syscall.Flock`. -/
def Call.isFlock : Call → Bool
  | Call.Flock _ _ _ => true
  | _ => false

/-- Whether a logged call is a `LOCK_EX|LOCK_NB` attempt that returned an error. -/
def Call.failedAttempt : Call → Bool
  | Call.Flock _ how (some _) => how == (LOCK_EX ||| LOCK_NB)
  | _ => false

/-- Whether a logged call is an `os.OpenFile` or `syscall.Flock` that returned an error. -/
def Call.failed : Call → Bool
  | Call.OpenFile _ _ _ (Except.error _) => true
  | Call.Flock _ _ (some _) => true
  | _ => false

/-- Number of `syscall.Flock` calls in a log. -/
def flockCalls (t : List Call) : Nat := t.countP Call.isFlock

/-- Number of failed `LOCK_EX|LOCK_NB` attempts in a log. -/
def failedAttempts (t : List Call) : Nat := t.countP Call.failedAttempt

/-- Number of failed `os.OpenFile` and `syscall.Flock` calls in a log. -/
def osFailures (t : List Call) : Nat := t.countP Call.failed

/-- The flags `os.O_CREATE|os.O_TRUNC|os.O_RDWR` that `setFh()` opens the file with. -/
def openFlags : Nat := O_CREATE ||| O_TRUNC ||| O_RDWR

/-- Rounds of `Unlock()` followed by `Lock()` on one handle, `n` of them: the
errors the calls returned, in order, and the handle and world at the end. -/
def cycles {σ : Type} (os : OS σ) : Nat → flock × World σ → List error × (flock × World σ)
  | 0, s => ([], s)
  | n + 1, s =>
    let u := s.1.Unlock os s.2
    let l := u.1.2.Lock os u.2
    let r := cycles os n (l.1.2, l.2)
    (u.1.1 :: l.1.1 :: r.1, r.2)

/-- What the model kernel records about a handle whose backing file is `ap`: an
open file handle is a descriptor already handed out that refers to `ap`, and a
locked handle's descriptor is the holder of the lock of `ap`. -/
def Tracks (ap : String) (f : flock) (k : Kernel) : Prop :=
  f.absPath = ap ∧
  (∀ a : File, f.fh = some a → a.fd < (k.nextFd : Int) ∧ k.files a.fd = some ap) ∧
  (f.locked = true → ∃ a : File, f.fh = some a ∧ k.holder ap = some a.fd)

/-- Two handles never share a descriptor. -/
def Apart (f g : flock) : Prop :=
  ∀ a b : File, f.fh = some a → g.fh = some b → a.fd ≠ b.fd

/-- Two handles created with `NewFlock` for the same path in the same world. -/
def Pair.start {σ : Type} (os : OS σ) (path : String) (w : World σ) : Pair σ :=
  { A := NewFlock os path w, B := NewFlock os path w, w := w }

/-- A world of the model kernel with working directory `/tmp`. -/
def w0 : World Kernel := World.init (Kernel.boot (some "/tmp"))

/-- A world without a working directory, in which `filepath.Abs` fails on relative paths. -/
def wNoCwd : World Kernel := World.init (Kernel.boot none)

/-- The world after some other handle took the lock of `/tmp/foo.lock`. -/
def wHeld : World Kernel := ((NewFlock posix "foo.lock" w0).Lock posix w0).2

/-- A handle that holds the lock of `/tmp/foo.lock` in `wHeld`. -/
def fHeld : flock := ((NewFlock posix "foo.lock" w0).Lock posix w0).1.2

/-! ## Basic facts -/

theorem Lock_of_locked {σ : Type} (os : OS σ) (f : flock) (w : World σ) (h : f.locked = true) :
    f.Lock os w = ((none, f), w) := by
  simp [flock.Lock, h]

theorem Lock_of_open {σ : Type} (os : OS σ) (f : flock) (w : World σ) (fh : File)
    (hl : f.locked = false) (hf : f.fh = some fh) :
    f.Lock os w = f.lockAttempt os w := by
  simp [flock.Lock, hl, hf]

theorem Lock_open_error {σ : Type} (os : OS σ) (f : flock) (w : World σ) (e : Error)
    (hl : f.locked = false) (hf : f.fh = none)
    (ho : (os.openFile f.absPath (O_CREATE ||| O_TRUNC ||| O_RDWR) 0o600 w.kernel).1 = Except.error e) :
    f.Lock os w =
      ((some e, f), (osOpenFile os f.absPath (O_CREATE ||| O_TRUNC ||| O_RDWR) 0o600 w).2) := by
  simp [flock.Lock, hl, hf, flock.setFh, osOpenFile, ho]

theorem Lock_open_ok {σ : Type} (os : OS σ) (f : flock) (w : World σ) (fh : File)
    (hl : f.locked = false) (hf : f.fh = none)
    (ho : (os.openFile f.absPath (O_CREATE ||| O_TRUNC ||| O_RDWR) 0o600 w.kernel).1 = Except.ok fh) :
    f.Lock os w =
      flock.lockAttempt os { f with fh := some fh }
        (osOpenFile os f.absPath (O_CREATE ||| O_TRUNC ||| O_RDWR) 0o600 w).2 := by
  simp [flock.Lock, hl, hf, flock.setFh, osOpenFile, ho]

theorem Lock_nil_locked {σ : Type} (os : OS σ) (f : flock) (w : World σ)
    (h : (f.Lock os w).1.1 = none) : (f.Lock os w).1.2.locked = true := by
  cases hl : f.locked with
  | true => rw [Lock_of_locked os f w hl]; exact hl
  | false =>
    cases hf : f.fh with
    | some fh =>
      rw [Lock_of_open os f w fh hl hf] at h ⊢
      simp only [flock.lockAttempt] at h ⊢
      simp [h]
    | none =>
      cases ho : (os.openFile f.absPath (O_CREATE ||| O_TRUNC ||| O_RDWR) 0o600 w.kernel).1 with
      | error e => rw [Lock_open_error os f w e hl hf ho] at h; simp at h
      | ok fh =>
        rw [Lock_open_ok os f w fh hl hf ho] at h ⊢
        simp only [flock.lockAttempt] at h ⊢
        simp [h]

theorem Unlock_short {σ : Type} (os : OS σ) (f : flock) (w : World σ)
    (h : f.locked = false ∨ f.fh = none) : f.Unlock os w = ((ErrUnlock, f), w) := by
  unfold flock.Unlock
  rcases h with h | h <;> simp [h]

theorem Unlock_ok {σ : Type} (os : OS σ) (f : flock) (w : World σ) (fh : File)
    (hl : f.locked = true) (hf : f.fh = some fh)
    (hu : (os.flock fh.fd LOCK_UN w.kernel).1 = none) :
    f.Unlock os w =
      ((none, { f with locked := false, fh := none }),
        (fileClose os fh.fd (syscallFlock os fh.fd LOCK_UN w).2).2) := by
  simp [flock.Unlock, hl, hf, Fd, syscallFlock, hu]

theorem Unlock_error {σ : Type} (os : OS σ) (f : flock) (w : World σ) (fh : File) (e : Error)
    (hl : f.locked = true) (hf : f.fh = some fh)
    (hu : (os.flock fh.fd LOCK_UN w.kernel).1 = some e) :
    f.Unlock os w = ((some e, f), (syscallFlock os fh.fd LOCK_UN w).2) := by
  simp [flock.Unlock, hl, hf, Fd, syscallFlock, hu]

/-! ## Release -/

/-- C2. Release without lock fails: on a handle whose `locked` flag is false or
whose file handle is nil, `Unlock` returns `ErrUnlock` (a non-nil error), and
both the handle (path, absPath, fh, locked) and the world (kernel state and call
log, so no OS call was made) are exactly as before; in particular this holds for
`NewFlock(p)` for every path `p`. -/
theorem Unlock_without_lock {σ : Type} (os : OS σ) (f : flock) (w : World σ)
    (h : f.locked = false ∨ f.fh = none) :
    f.Unlock os w = ((ErrUnlock, f), w) ∧
    ErrUnlock ≠ none ∧
    (f.Unlock os w).2.trace = w.trace ∧
    ∀ (p : String) (v : World σ),
      (NewFlock os p v).Unlock os w = ((ErrUnlock, NewFlock os p v), w) := by
  refine ⟨Unlock_short os f w h, by simp [ErrUnlock], ?_, ?_⟩
  · rw [Unlock_short os f w h]
  · intro p v
    exact Unlock_short os _ w (Or.inl rfl)

theorem Unlock_without_lock_witness :
    ((NewFlock posix "foo.lock" w0).locked = false ∨ (NewFlock posix "foo.lock" w0).fh = none) ∧
    (NewFlock posix "foo.lock" w0).Unlock posix wHeld =
      ((ErrUnlock, NewFlock posix "foo.lock" w0), wHeld) :=
  ⟨Or.inl rfl, (Unlock_without_lock posix (NewFlock posix "foo.lock" w0) wHeld (Or.inl rfl)).1⟩

/-- C4. Fail-closed release: on a handle with `locked` true and a non-nil file
handle, `Unlock` makes the OS unlock call on that handle's descriptor and
returns exactly its result; when the call succeeds the file is closed and the
handle ends with `locked` false and `fh` nil (path and absPath unchanged); when
it fails the handle is exactly as before and the OS error is returned, with no
further OS call. -/
theorem Unlock_fail_closed {σ : Type} (os : OS σ) (f : flock) (w : World σ) (fh : File)
    (hl : f.locked = true) (hf : f.fh = some fh) :
    (f.Unlock os w).1.1 = (os.flock fh.fd LOCK_UN w.kernel).1 ∧
    ((os.flock fh.fd LOCK_UN w.kernel).1 = none →
      (f.Unlock os w).1.2 = { f with locked := false, fh := none } ∧
      (f.Unlock os w).2.trace =
        w.trace ++ [Call.Flock fh.fd LOCK_UN none,
          Call.Close fh.fd (os.close fh.fd (os.flock fh.fd LOCK_UN w.kernel).2).1]) ∧
    (∀ e : Error, (os.flock fh.fd LOCK_UN w.kernel).1 = some e →
      (f.Unlock os w).1.1 = some e ∧ (f.Unlock os w).1.2 = f ∧
      (f.Unlock os w).2.trace = w.trace ++ [Call.Flock fh.fd LOCK_UN (some e)]) := by
  cases hu : (os.flock fh.fd LOCK_UN w.kernel).1 with
  | none =>
    rw [Unlock_ok os f w fh hl hf hu]
    simp [fileClose, syscallFlock, hu]
  | some e =>
    rw [Unlock_error os f w fh e hl hf hu]
    simp [syscallFlock, hu]

theorem Unlock_fail_closed_witness :
    (fHeld.locked = true ∧ fHeld.fh = some { fd := 3 }) ∧
    (fHeld.Unlock posix wHeld).1.1 = (posix.flock 3 LOCK_UN wHeld.kernel).1 :=
  ⟨by decide, (Unlock_fail_closed posix fHeld wHeld { fd := 3 } (by decide) (by decide)).1⟩

/-- C9 (evaluation). On a fresh handle the short-circuit of `Unlock` returns the
sentinel `ErrUnlock`, which is not the nil error. -/
theorem Unlock_fresh_returns_ErrUnlock :
    ((NewFlock posix "foo.lock" w0).Unlock posix w0).1.1 = some Error.AlreadyUnlocked ∧
    ((NewFlock posix "foo.lock" w0).Unlock posix w0).1.1 ≠ none := by
  decide

/-! ## Acquire -/

/-- C3. Idempotent re-acquire: on a handle whose `locked` flag is true, `Lock`
returns nil and leaves the handle and the world (kernel state and call log)
exactly as they were, so it opens no file and makes no OS lock call; hence when
a first `Lock` returns nil, a second `Lock` right after it returns nil too and
changes neither the handle nor the world. -/
theorem Lock_idempotent {σ : Type} (os : OS σ) (f : flock) (w : World σ)
    (h : f.locked = true) :
    f.Lock os w = ((none, f), w) ∧
    ∀ (g : flock) (v : World σ), (g.Lock os v).1.1 = none →
      (g.Lock os v).1.2.Lock os (g.Lock os v).2 = ((none, (g.Lock os v).1.2), (g.Lock os v).2) := by
  refine ⟨Lock_of_locked os f w h, ?_⟩
  intro g v hg
  exact Lock_of_locked os _ _ (Lock_nil_locked os g v hg)

theorem Lock_idempotent_witness :
    fHeld.locked = true ∧ fHeld.Lock posix wHeld = ((none, fHeld), wHeld) :=
  ⟨by decide, (Lock_idempotent posix fHeld wHeld (by decide)).1⟩

/-- C5. Acquire outcome: on a handle whose `locked` flag is false and whose
backing file is open (`fh` non-nil) or opens successfully, `Lock` makes one
`LOCK_EX|LOCK_NB` call on the file's descriptor and nothing after it (the log
grows by that single call past the optional open, the number of lock calls in
the log grows by exactly one), returns that call's result, stores the file
handle, and ends with `locked` true exactly when the call returned nil; when
the call fails, its error is returned and `locked` stays false. -/
theorem Lock_acquire_outcome {σ : Type} (os : OS σ) (f : flock) (w : World σ) (fh : File)
    (hl : f.locked = false)
    (ho : f.fh = some fh ∨
      (f.fh = none ∧ (os.openFile f.absPath openFlags 0o600 w.kernel).1 = Except.ok fh)) :
    (f.Lock os w).1.1 = (os.flock fh.fd (LOCK_EX ||| LOCK_NB) (lockWorld os f w).kernel).1 ∧
    (f.Lock os w).1.2 =
      { f with
        fh := some fh
        locked := (os.flock fh.fd (LOCK_EX ||| LOCK_NB) (lockWorld os f w).kernel).1.isNone } ∧
    (f.Lock os w).2.kernel = (os.flock fh.fd (LOCK_EX ||| LOCK_NB) (lockWorld os f w).kernel).2 ∧
    (f.Lock os w).2.trace =
      (lockWorld os f w).trace ++
        [Call.Flock fh.fd (LOCK_EX ||| LOCK_NB)
          (os.flock fh.fd (LOCK_EX ||| LOCK_NB) (lockWorld os f w).kernel).1] ∧
    flockCalls (f.Lock os w).2.trace = flockCalls w.trace + 1 ∧
    ((f.Lock os w).1.2.locked = true ↔
      (os.flock fh.fd (LOCK_EX ||| LOCK_NB) (lockWorld os f w).kernel).1 = none) ∧
    (∀ e : Error, (os.flock fh.fd (LOCK_EX ||| LOCK_NB) (lockWorld os f w).kernel).1 = some e →
      (f.Lock os w).1.1 = some e ∧ (f.Lock os w).1.2.locked = false) := by
  rcases ho with hf | ⟨hf, ho⟩
  · rw [Lock_of_open os f w fh hl hf]
    have hw : lockWorld os f w = w := by simp [lockWorld, hf]
    rw [hw]
    have hff : f = { f with fh := some fh } := by cases f; simp_all
    refine ⟨by simp [flock.lockAttempt, syscallFlock, hf, Fd], ?_,
      by simp [flock.lockAttempt, syscallFlock, hf, Fd],
      by simp [flock.lockAttempt, syscallFlock, hf, Fd],
      by simp [flock.lockAttempt, syscallFlock, hf, Fd, flockCalls, List.countP_append, Call.isFlock],
      by simp [flock.lockAttempt, syscallFlock, hf, Fd], ?_⟩
    · simp [flock.lockAttempt, syscallFlock, hf, Fd]
    · intro e he
      simp [flock.lockAttempt, syscallFlock, hf, Fd, he]
  · rw [Lock_open_ok os f w fh hl hf ho]
    have hw : lockWorld os f w = (osOpenFile os f.absPath openFlags 0o600 w).2 := by
      simp [lockWorld, hf, openFlags]
    rw [hw]
    refine ⟨by simp [flock.lockAttempt, syscallFlock, Fd, openFlags],
      by simp [flock.lockAttempt, syscallFlock, Fd, openFlags],
      by simp [flock.lockAttempt, syscallFlock, Fd, openFlags],
      by simp [flock.lockAttempt, syscallFlock, Fd, openFlags],
      by simp [flock.lockAttempt, syscallFlock, Fd, openFlags, osOpenFile, flockCalls,
        List.countP_append, Call.isFlock],
      by simp [flock.lockAttempt, syscallFlock, Fd, openFlags], ?_⟩
    intro e he
    simp only [openFlags] at he
    simp [flock.lockAttempt, syscallFlock, Fd, openFlags, he]

theorem Lock_acquire_outcome_witness :
    ((NewFlock posix "foo.lock" w0).locked = false ∧
      ((NewFlock posix "foo.lock" w0).fh = some { fd := 4 } ∨
        ((NewFlock posix "foo.lock" w0).fh = none ∧
          (posix.openFile (NewFlock posix "foo.lock" w0).absPath openFlags 0o600 wHeld.kernel).1 =
            Except.ok { fd := 4 }))) ∧
    ((NewFlock posix "foo.lock" w0).Lock posix wHeld).1.1 = some (Error.Errno EWOULDBLOCK) ∧
    ((NewFlock posix "foo.lock" w0).Lock posix wHeld).1.2.locked = false :=
  ⟨⟨rfl, Or.inr ⟨rfl, rfl⟩⟩,
    (Lock_acquire_outcome posix (NewFlock posix "foo.lock" w0) wHeld { fd := 4 } rfl
      (Or.inr ⟨rfl, rfl⟩)).2.2.2.2.2.2 (Error.Errno EWOULDBLOCK) (by decide)⟩

/-! ## Reachable states -/

theorem Lock_handle {σ : Type} (os : OS σ) (f : flock) (w : World σ) :
    (f.Lock os w).1.2 = f ∨
    ∃ (fh : File) (b : Bool), (f.Lock os w).1.2 = { f with fh := some fh, locked := b } := by
  cases hl : f.locked with
  | true => left; rw [Lock_of_locked os f w hl]
  | false =>
    cases hf : f.fh with
    | some fh =>
      right
      refine ⟨fh, (syscallFlock os (Fd f.fh) (LOCK_EX ||| LOCK_NB) w).1.isNone, ?_⟩
      rw [Lock_of_open os f w fh hl hf]
      simp [flock.lockAttempt, hf]
    | none =>
      cases ho : (os.openFile f.absPath (O_CREATE ||| O_TRUNC ||| O_RDWR) 0o600 w.kernel).1 with
      | error e => left; rw [Lock_open_error os f w e hl hf ho]
      | ok fh =>
        right
        rw [Lock_open_ok os f w fh hl hf ho]
        exact ⟨fh, _, rfl⟩

theorem Unlock_handle {σ : Type} (os : OS σ) (f : flock) (w : World σ) :
    (f.Unlock os w).1.2 = f ∨ (f.Unlock os w).1.2 = { f with locked := false, fh := none } := by
  cases hl : f.locked with
  | false => left; rw [Unlock_short os f w (Or.inl hl)]
  | true =>
    cases hf : f.fh with
    | none => left; rw [Unlock_short os f w (Or.inr hf)]
    | some fh =>
      cases hu : (os.flock fh.fd LOCK_UN w.kernel).1 with
      | none => right; rw [Unlock_ok os f w fh hl hf hu]
      | some e => left; rw [Unlock_error os f w fh e hl hf hu]

theorem run_invariant {σ : Type} (os : OS σ) (P : flock × World σ → Prop)
    (hstep : ∀ (s : flock × World σ) (op : Op), P s → P (step os s op))
    (ops : List Op) (s : flock × World σ) (h : P s) : P (run os ops s) := by
  induction ops generalizing s with
  | nil => exact h
  | cons op ops ih => exact ih (step os s op) (hstep s op h)

theorem step_path {σ : Type} (os : OS σ) (s : flock × World σ) (op : Op) :
    (step os s op).1.path = s.1.path := by
  cases op with
  | Lock =>
    rcases Lock_handle os s.1 s.2 with h | ⟨fh, b, h⟩ <;> simp [step, h]
  | Unlock =>
    rcases Unlock_handle os s.1 s.2 with h | h <;> simp [step, h]
  | Locked => rfl
  | Path => rfl
  | String => rfl

theorem step_locked_open {σ : Type} (os : OS σ) (s : flock × World σ) (op : Op)
    (h : s.1.locked = true → s.1.fh ≠ none) :
    (step os s op).1.locked = true → (step os s op).1.fh ≠ none := by
  cases op with
  | Lock =>
    rcases Lock_handle os s.1 s.2 with h1 | ⟨fh, b, h1⟩
    · simpa [step, h1] using h
    · simp [step, h1]
  | Unlock =>
    rcases Unlock_handle os s.1 s.2 with h1 | h1
    · simpa [step, h1] using h
    · simp [step, h1]
  | Locked => exact h
  | Path => exact h
  | String => exact h

/-- C7. Locked implies open handle: in every state reached from `NewFlock(p)` by
any sequence of `Lock`, `Unlock`, `Locked`, `Path` and `String` calls, over any
operating system (so with every open, lock, unlock and close call free to
succeed or fail), a handle with `locked` true has a non-nil file handle. -/
theorem locked_implies_fh {σ : Type} (os : OS σ) (p : String) (v w : World σ) (ops : List Op) :
    (run os ops (NewFlock os p v, w)).1.locked = true →
      (run os ops (NewFlock os p v, w)).1.fh ≠ none :=
  run_invariant os (fun s => s.1.locked = true → s.1.fh ≠ none)
    (fun s op h => step_locked_open os s op h) ops _ (by simp [NewFlock])

theorem locked_implies_fh_witness :
    (run posix [Op.Lock] (NewFlock posix "foo.lock" w0, w0)).1.locked = true ∧
    (run posix [Op.Lock] (NewFlock posix "foo.lock" w0, w0)).1.fh ≠ none :=
  ⟨by decide, locked_implies_fh posix "foo.lock" w0 w0 [Op.Lock] (by decide)⟩

/-- C10. Path round trip: for every string `p` and every operating system,
`NewFlock(p)` is an unlocked handle with no open file, also when
`filepath.Abs` fails (as it does in the model kernel without a working
directory, where the absolute path is left empty); `Path()` returns exactly `p`
on it, immediately and after any sequence of `Lock`, `Unlock`, `Locked`, `Path`
and `String` calls whatever the OS answers; and `Path`, `Locked` and `String`
leave the handle and the world as they are. -/
theorem Path_round_trip {σ : Type} (os : OS σ) (p : String) (v w : World σ) (ops : List Op) :
    (NewFlock os p v).locked = false ∧ (NewFlock os p v).fh = none ∧
    (NewFlock os p v).Path = p ∧
    (run os ops (NewFlock os p v, w)).1.Path = p ∧
    (∀ s : flock × World σ,
      step os s Op.Path = s ∧ step os s Op.Locked = s ∧ step os s Op.String = s) ∧
    ((posix.abs "foo.lock" wNoCwd.kernel).2 ≠ none ∧
      NewFlock posix "foo.lock" wNoCwd =
        { path := "foo.lock", absPath := "", fh := none, locked := false }) := by
  refine ⟨rfl, rfl, rfl, ?_, fun s => ⟨rfl, rfl, rfl⟩, by decide⟩
  exact run_invariant os (fun s => s.1.Path = p)
    (fun s op h => by simpa [flock.Path, step_path] using h) ops _ rfl

/-! ## The call log -/

theorem Lock_trace {σ : Type} (os : OS σ) (f : flock) (w : World σ) :
    ∃ ext : List Call, (f.Lock os w).2.trace = w.trace ++ ext := by
  cases hl : f.locked with
  | true => exact ⟨[], by rw [Lock_of_locked os f w hl]; simp⟩
  | false =>
    cases hf : f.fh with
    | some fh =>
      rw [Lock_of_open os f w fh hl hf]
      exact ⟨_, rfl⟩
    | none =>
      cases ho : (os.openFile f.absPath (O_CREATE ||| O_TRUNC ||| O_RDWR) 0o600 w.kernel).1 with
      | error e =>
        rw [Lock_open_error os f w e hl hf ho]
        exact ⟨_, rfl⟩
      | ok fh =>
        rw [Lock_open_ok os f w fh hl hf ho]
        have h1 : (flock.lockAttempt os { f with fh := some fh }
            (osOpenFile os f.absPath (O_CREATE ||| O_TRUNC ||| O_RDWR) 0o600 w).2).2.trace =
            (osOpenFile os f.absPath (O_CREATE ||| O_TRUNC ||| O_RDWR) 0o600 w).2.trace ++ [_] := rfl
        have h2 : (osOpenFile os f.absPath (O_CREATE ||| O_TRUNC ||| O_RDWR) 0o600 w).2.trace =
            w.trace ++ [_] := rfl
        exact ⟨_, by rw [h1, h2, List.append_assoc]⟩

theorem Unlock_trace {σ : Type} (os : OS σ) (f : flock) (w : World σ) :
    ∃ ext : List Call, (f.Unlock os w).2.trace = w.trace ++ ext := by
  cases hl : f.locked with
  | false => exact ⟨[], by rw [Unlock_short os f w (Or.inl hl)]; simp⟩
  | true =>
    cases hf : f.fh with
    | none => exact ⟨[], by rw [Unlock_short os f w (Or.inr hf)]; simp⟩
    | some fh =>
      cases hu : (os.flock fh.fd LOCK_UN w.kernel).1 with
      | none =>
        rw [Unlock_ok os f w fh hl hf hu]
        have h1 : (fileClose os fh.fd (syscallFlock os fh.fd LOCK_UN w).2).2.trace =
            (syscallFlock os fh.fd LOCK_UN w).2.trace ++ [_] := rfl
        have h2 : (syscallFlock os fh.fd LOCK_UN w).2.trace = w.trace ++ [_] := rfl
        exact ⟨_, by rw [h1, h2, List.append_assoc]⟩
      | some e =>
        rw [Unlock_error os f w fh e hl hf hu]
        exact ⟨_, rfl⟩

theorem step_trace {σ : Type} (os : OS σ) (s : flock × World σ) (op : Op) :
    ∃ ext : List Call, (step os s op).2.trace = s.2.trace ++ ext := by
  cases op with
  | Lock => exact Lock_trace os s.1 s.2
  | Unlock => exact Unlock_trace os s.1 s.2
  | Locked => exact ⟨[], by simp [step]⟩
  | Path => exact ⟨[], by simp [step]⟩
  | String => exact ⟨[], by simp [step]⟩

theorem run_trace {σ : Type} (os : OS σ) (ops : List Op) (s : flock × World σ) :
    ∃ ext : List Call, (run os ops s).2.trace = s.2.trace ++ ext := by
  induction ops generalizing s with
  | nil => exact ⟨[], by simp [run]⟩
  | cons op ops ih =>
    obtain ⟨e1, h1⟩ := step_trace os s op
    obtain ⟨e2, h2⟩ := ih (step os s op)
    refine ⟨e1 ++ e2, ?_⟩
    show (run os ops (step os s op)).2.trace = _
    rw [h2, h1, List.append_assoc]

theorem failedAttempts_step_le {σ : Type} (os : OS σ) (s : flock × World σ) (op : Op) :
    failedAttempts s.2.trace ≤ failedAttempts (step os s op).2.trace := by
  obtain ⟨e, h⟩ := step_trace os s op
  rw [h]
  simp [failedAttempts, List.countP_append]

theorem failedAttempts_run_le {σ : Type} (os : OS σ) (ops : List Op) (s : flock × World σ) :
    failedAttempts s.2.trace ≤ failedAttempts (run os ops s).2.trace := by
  obtain ⟨e, h⟩ := run_trace os ops s
  rw [h]
  simp [failedAttempts, List.countP_append]

theorem Lock_failed_attempt {σ : Type} (os : OS σ) (f : flock) (w : World σ)
    (hl : f.locked = false) (hl2 : (f.Lock os w).1.2.locked = false)
    (hf2 : (f.Lock os w).1.2.fh ≠ none) :
    failedAttempts (f.Lock os w).2.trace = failedAttempts w.trace + 1 := by
  cases hf : f.fh with
  | some fh =>
    rw [Lock_of_open os f w fh hl hf] at hl2 ⊢
    simp only [flock.lockAttempt, syscallFlock] at hl2 ⊢
    cases hr : (os.flock (Fd f.fh) (LOCK_EX ||| LOCK_NB) w.kernel).1 with
    | none => simp [hr] at hl2
    | some e => simp [failedAttempts, List.countP_append, Call.failedAttempt]
  | none =>
    cases ho : (os.openFile f.absPath (O_CREATE ||| O_TRUNC ||| O_RDWR) 0o600 w.kernel).1 with
    | error e =>
      rw [Lock_open_error os f w e hl hf ho] at hf2
      exact absurd hf hf2
    | ok fh =>
      rw [Lock_open_ok os f w fh hl hf ho] at hl2 ⊢
      simp only [flock.lockAttempt, syscallFlock] at hl2 ⊢
      cases hr : (os.flock (Fd (some fh)) (LOCK_EX ||| LOCK_NB)
          (osOpenFile os f.absPath (O_CREATE ||| O_TRUNC ||| O_RDWR) 0o600 w).2.kernel).1 with
      | none => simp [hr] at hl2
      | some e =>
        simp [failedAttempts, List.countP_append, Call.failedAttempt, osOpenFile]

theorem step_unlocked_nil {σ : Type} (os : OS σ) (s : flock × World σ) (op : Op)
    (h : s.1.locked = false → s.1.fh = none)
    (hn : failedAttempts (step os s op).2.trace = failedAttempts s.2.trace) :
    (step os s op).1.locked = false → (step os s op).1.fh = none := by
  cases op with
  | Lock =>
    intro hl2
    cases hl : s.1.locked with
    | true =>
      have := Lock_of_locked os s.1 s.2 hl
      simp [step, this, hl] at hl2
    | false =>
      by_contra hf2
      have := Lock_failed_attempt os s.1 s.2 hl hl2 hf2
      simp only [step] at hn
      omega
  | Unlock =>
    rcases Unlock_handle os s.1 s.2 with h1 | h1
    · simpa [step, h1] using h
    · simp [step, h1]
  | Locked => exact h
  | Path => exact h
  | String => exact h

theorem run_unlocked_nil {σ : Type} (os : OS σ) (ops : List Op) (s : flock × World σ)
    (h : s.1.locked = false → s.1.fh = none)
    (hn : failedAttempts (run os ops s).2.trace = failedAttempts s.2.trace) :
    (run os ops s).1.locked = false → (run os ops s).1.fh = none := by
  induction ops generalizing s with
  | nil => exact h
  | cons op ops ih =>
    have e : run os (op :: ops) s = run os ops (step os s op) := rfl
    rw [e] at hn ⊢
    have h1 := failedAttempts_step_le os s op
    have h2 := failedAttempts_run_le os ops (step os s op)
    exact ih (step os s op) (step_unlocked_nil os s op h (by omega)) (by omega)

/-- C8 (counterexample). In the model kernel, a fresh handle whose `Lock` fails
with `EWOULDBLOCK` because another descriptor holds the lock ends with `locked`
false and the file it opened still stored in `fh`. -/
theorem unlocked_with_open_fh :
    ((NewFlock posix "foo.lock" w0).Lock posix wHeld).1.1 = some (Error.Errno EWOULDBLOCK) ∧
    ¬ ((run posix [Op.Lock] (NewFlock posix "foo.lock" w0, wHeld)).1.locked = false →
        (run posix [Op.Lock] (NewFlock posix "foo.lock" w0, wHeld)).1.fh = none) := by
  decide

/-- C8 (amended). In every state reached from `NewFlock(p)` by any sequence of
`Lock`, `Unlock`, `Locked`, `Path` and `String` calls, over any operating
system, during which no `LOCK_EX|LOCK_NB` attempt returned an error (the log
holds as many failed attempts as before the first call), a handle with `locked`
false has a nil file handle; opens, unlocks and closes may fail freely. -/
theorem unlocked_implies_fh_nil {σ : Type} (os : OS σ) (p : String) (v w : World σ)
    (ops : List Op)
    (hn : failedAttempts (run os ops (NewFlock os p v, w)).2.trace = failedAttempts w.trace) :
    (run os ops (NewFlock os p v, w)).1.locked = false →
      (run os ops (NewFlock os p v, w)).1.fh = none :=
  run_unlocked_nil os ops (NewFlock os p v, w) (fun _ => rfl) hn

theorem unlocked_implies_fh_nil_witness :
    (failedAttempts (run posix [Op.Lock, Op.Unlock] (NewFlock posix "foo.lock" w0, w0)).2.trace =
        failedAttempts w0.trace ∧
      (run posix [Op.Lock, Op.Unlock] (NewFlock posix "foo.lock" w0, w0)).1.locked = false) ∧
    (run posix [Op.Lock, Op.Unlock] (NewFlock posix "foo.lock" w0, w0)).1.fh = none :=
  ⟨⟨by decide, by decide⟩,
    unlocked_implies_fh_nil posix "foo.lock" w0 w0 [Op.Lock, Op.Unlock] (by decide) (by decide)⟩

/-! ## Release and acquire again -/

theorem Unlock_no_failure {σ : Type} (os : OS σ) (f : flock) (w : World σ) (fh : File)
    (hl : f.locked = true) (hf : f.fh = some fh)
    (hn : osFailures (f.Unlock os w).2.trace = osFailures w.trace) :
    (os.flock fh.fd LOCK_UN w.kernel).1 = none := by
  cases hu : (os.flock fh.fd LOCK_UN w.kernel).1 with
  | none => rfl
  | some e =>
    rw [Unlock_error os f w fh e hl hf hu] at hn
    simp [syscallFlock, osFailures, List.countP_append, Call.failed, hu] at hn

theorem Lock_no_failure {σ : Type} (os : OS σ) (f : flock) (w : World σ)
    (hl : f.locked = false)
    (hn : osFailures (f.Lock os w).2.trace = osFailures w.trace) :
    (f.Lock os w).1.1 = none ∧ (f.Lock os w).1.2.fh ≠ none := by
  cases hf : f.fh with
  | some fh =>
    rw [Lock_of_open os f w fh hl hf] at hn ⊢
    simp only [flock.lockAttempt, syscallFlock] at hn ⊢
    cases hr : (os.flock (Fd f.fh) (LOCK_EX ||| LOCK_NB) w.kernel).1 with
    | none => simp [hf]
    | some e => simp [osFailures, List.countP_append, Call.failed, hr] at hn
  | none =>
    cases ho : (os.openFile f.absPath (O_CREATE ||| O_TRUNC ||| O_RDWR) 0o600 w.kernel).1 with
    | error e =>
      rw [Lock_open_error os f w e hl hf ho] at hn
      simp [osOpenFile, osFailures, List.countP_append, Call.failed, ho] at hn
    | ok fh =>
      rw [Lock_open_ok os f w fh hl hf ho] at hn ⊢
      simp only [flock.lockAttempt, syscallFlock] at hn ⊢
      cases hr : (os.flock (Fd (some fh)) (LOCK_EX ||| LOCK_NB)
          (osOpenFile os f.absPath (O_CREATE ||| O_TRUNC ||| O_RDWR) 0o600 w).2.kernel).1 with
      | none => simp
      | some e =>
        simp [osOpenFile, osFailures, List.countP_append, Call.failed, ho] at hn hr
        simp [hr, Call.failed] at hn

theorem cycles_trace {σ : Type} (os : OS σ) (n : Nat) (s : flock × World σ) :
    ∃ ext : List Call, (cycles os n s).2.2.trace = s.2.trace ++ ext := by
  induction n generalizing s with
  | zero => exact ⟨[], by simp [cycles]⟩
  | succ n ih =>
    obtain ⟨e1, h1⟩ := Unlock_trace os s.1 s.2
    obtain ⟨e2, h2⟩ := Lock_trace os (s.1.Unlock os s.2).1.2 (s.1.Unlock os s.2).2
    obtain ⟨e3, h3⟩ := ih (((s.1.Unlock os s.2).1.2.Lock os (s.1.Unlock os s.2).2).1.2,
      ((s.1.Unlock os s.2).1.2.Lock os (s.1.Unlock os s.2).2).2)
    refine ⟨e1 ++ (e2 ++ e3), ?_⟩
    show (cycles os n _).2.2.trace = _
    rw [h3, h2, h1]
    simp [List.append_assoc]

theorem cycles_ok {σ : Type} (os : OS σ) (n : Nat) (g : flock) (v : World σ)
    (hl : g.locked = true) (hf : g.fh ≠ none)
    (hn : osFailures (cycles os n (g, v)).2.2.trace = osFailures v.trace) :
    (cycles os n (g, v)).1 = List.replicate (2 * n) none ∧
    (cycles os n (g, v)).2.1.locked = true ∧ (cycles os n (g, v)).2.1.fh ≠ none := by
  induction n generalizing g v with
  | zero => exact ⟨rfl, hl, hf⟩
  | succ n ih =>
    obtain ⟨fh, hfh⟩ := Option.ne_none_iff_exists'.mp hf
    obtain ⟨e1, h1⟩ := Unlock_trace os g v
    obtain ⟨e2, h2⟩ := Lock_trace os (g.Unlock os v).1.2 (g.Unlock os v).2
    obtain ⟨e3, h3⟩ := cycles_trace os n (((g.Unlock os v).1.2.Lock os (g.Unlock os v).2).1.2,
      ((g.Unlock os v).1.2.Lock os (g.Unlock os v).2).2)
    have e : cycles os (n + 1) (g, v) =
        ((g.Unlock os v).1.1 :: ((g.Unlock os v).1.2.Lock os (g.Unlock os v).2).1.1 ::
          (cycles os n (((g.Unlock os v).1.2.Lock os (g.Unlock os v).2).1.2,
            ((g.Unlock os v).1.2.Lock os (g.Unlock os v).2).2)).1,
         (cycles os n (((g.Unlock os v).1.2.Lock os (g.Unlock os v).2).1.2,
            ((g.Unlock os v).1.2.Lock os (g.Unlock os v).2).2)).2) := rfl
    rw [e] at hn ⊢
    simp only at hn ⊢
    have a1 : osFailures (g.Unlock os v).2.trace = osFailures v.trace + osFailures e1 := by
      rw [h1]; simp [osFailures, List.countP_append]
    have a2 : osFailures ((g.Unlock os v).1.2.Lock os (g.Unlock os v).2).2.trace =
        osFailures (g.Unlock os v).2.trace + osFailures e2 := by
      rw [h2]; simp [osFailures, List.countP_append]
    have a3 : osFailures (cycles os n (((g.Unlock os v).1.2.Lock os (g.Unlock os v).2).1.2,
        ((g.Unlock os v).1.2.Lock os (g.Unlock os v).2).2)).2.2.trace =
        osFailures ((g.Unlock os v).1.2.Lock os (g.Unlock os v).2).2.trace + osFailures e3 := by
      rw [h3]; simp [osFailures, List.countP_append]
    have hu := Unlock_no_failure os g v fh hl hfh (by omega)
    have hU := Unlock_ok os g v fh hl hfh hu
    have hul : (g.Unlock os v).1.2.locked = false := by rw [hU]
    have hL := Lock_no_failure os (g.Unlock os v).1.2 (g.Unlock os v).2 hul (by omega)
    have hLl := Lock_nil_locked os (g.Unlock os v).1.2 (g.Unlock os v).2 hL.1
    have hrec := ih ((g.Unlock os v).1.2.Lock os (g.Unlock os v).2).1.2
      ((g.Unlock os v).1.2.Lock os (g.Unlock os v).2).2 hLl hL.2 (by omega)
    refine ⟨?_, hrec.2.1, hrec.2.2⟩
    rw [hrec.1, hL.1]
    have : (g.Unlock os v).1.1 = none := by rw [hU]
    rw [this]
    have : 2 * (n + 1) = (2 * n + 1) + 1 := by omega
    rw [this, List.replicate_succ, List.replicate_succ]

/-- C6. Re-lock after clean release: on a handle with `locked` true and an open
file, when the OS unlock call succeeds and the following open and lock attempt
succeed, `Unlock` returns nil and clears `fh`, the `Lock` after it returns nil,
opens the backing file again (the log grows by that open and the lock call) and
leaves the handle locked with the new file handle; and for every number `n` of
such rounds on a locked handle with an open file, during which no open and no
lock or unlock call fails, all `2 * n` calls return nil and the handle ends
locked with a non-nil file handle. -/
theorem relock_after_release {σ : Type} (os : OS σ) (f : flock) (w : World σ) (fh fh2 : File)
    (hl : f.locked = true) (hf : f.fh = some fh)
    (hu : (os.flock fh.fd LOCK_UN w.kernel).1 = none)
    (ho : (os.openFile f.absPath openFlags 0o600 (f.Unlock os w).2.kernel).1 = Except.ok fh2)
    (hk : (os.flock fh2.fd (LOCK_EX ||| LOCK_NB)
      (os.openFile f.absPath openFlags 0o600 (f.Unlock os w).2.kernel).2).1 = none) :
    (f.Unlock os w).1.1 = none ∧ (f.Unlock os w).1.2.fh = none ∧
    ((f.Unlock os w).1.2.Lock os (f.Unlock os w).2).1.1 = none ∧
    ((f.Unlock os w).1.2.Lock os (f.Unlock os w).2).1.2 =
      { f with fh := some fh2, locked := true } ∧
    ((f.Unlock os w).1.2.Lock os (f.Unlock os w).2).2.trace =
      (f.Unlock os w).2.trace ++
        [Call.OpenFile f.absPath openFlags 0o600 (Except.ok fh2),
          Call.Flock fh2.fd (LOCK_EX ||| LOCK_NB) none] ∧
    ∀ (n : Nat) (g : flock) (v : World σ), g.locked = true → g.fh ≠ none →
      osFailures (cycles os n (g, v)).2.2.trace = osFailures v.trace →
      (cycles os n (g, v)).1 = List.replicate (2 * n) none ∧
      (cycles os n (g, v)).2.1.locked = true ∧ (cycles os n (g, v)).2.1.fh ≠ none := by
  have hU := Unlock_ok os f w fh hl hf hu
  have hp : (f.Unlock os w).1.2.absPath = f.absPath := by rw [hU]
  have hL := Lock_open_ok os (f.Unlock os w).1.2 (f.Unlock os w).2 fh2
    (by rw [hU]) (by rw [hU]) (by rw [hp]; exact ho)
  refine ⟨by rw [hU], by rw [hU], ?_, ?_, ?_, fun n g v h1 h2 h3 => cycles_ok os n g v h1 h2 h3⟩
  · rw [hL, hp]
    simp only [flock.lockAttempt, syscallFlock, osOpenFile, Fd]
    exact hk
  · rw [hL, hp]
    simp only [flock.lockAttempt, syscallFlock, osOpenFile, Fd]
    simp only [openFlags] at hk
    rw [hk, hU]
    rfl
  · rw [hL, hp]
    simp only [flock.lockAttempt, syscallFlock, osOpenFile, Fd]
    simp only [openFlags] at hk ho ⊢
    rw [hk, ho]
    simp

theorem relock_after_release_witness :
    (fHeld.locked = true ∧ fHeld.fh = some { fd := 3 } ∧
      (posix.flock 3 LOCK_UN wHeld.kernel).1 = none) ∧
    (fHeld.Unlock posix wHeld).1.1 = none ∧
    ((fHeld.Unlock posix wHeld).1.2.Lock posix (fHeld.Unlock posix wHeld).2).1.1 = none ∧
    ((fHeld.Unlock posix wHeld).1.2.Lock posix (fHeld.Unlock posix wHeld).2).1.2 =
      { fHeld with fh := some { fd := 4 }, locked := true } :=
  ⟨⟨by decide, by decide, by decide⟩,
    (relock_after_release posix fHeld wHeld { fd := 3 } { fd := 4 } (by decide) (by decide)
      (by decide) rfl (by decide)).1,
    (relock_after_release posix fHeld wHeld { fd := 3 } { fd := 4 } (by decide) (by decide)
      (by decide) rfl (by decide)).2.2.1,
    (relock_after_release posix fHeld wHeld { fd := 3 } { fd := 4 } (by decide) (by decide)
      (by decide) rfl (by decide)).2.2.2.1⟩

/-! ## Mutual exclusion on the model kernel -/

theorem lockAttempt_posix (f : flock) (w : World Kernel) (a : File) (ap : String)
    (hfh : f.fh = some a) (hfile : w.kernel.files a.fd = some ap) :
    (f.lockAttempt posix w).1.2 = { f with locked := (f.lockAttempt posix w).1.2.locked } ∧
    (f.lockAttempt posix w).2.kernel.nextFd = w.kernel.nextFd ∧
    (f.lockAttempt posix w).2.kernel.files = w.kernel.files ∧
    ((f.lockAttempt posix w).1.2.locked = true →
      (f.lockAttempt posix w).2.kernel.holder ap = some a.fd) ∧
    (∀ h : Int, w.kernel.holder ap = some h → h ≠ a.fd →
      (f.lockAttempt posix w).1.1 ≠ none ∧ (f.lockAttempt posix w).1.2.locked = false ∧
      (f.lockAttempt posix w).2.kernel = w.kernel) := by
  simp only [flock.lockAttempt, syscallFlock, posix, Kernel.flock, hfh, Fd, hfile]
  cases hh : w.kernel.holder ap with
  | none => simp
  | some h =>
    by_cases e : h = a.fd
    · simp [e, hh]
    · simp [e]

theorem not_both_locked (ap : String) (f g : flock) (k : Kernel)
    (hf : Tracks ap f k) (hg : Tracks ap g k) (hfg : Apart f g) :
    ¬ (f.locked = true ∧ g.locked = true) := by
  rintro ⟨h1, h2⟩
  obtain ⟨a, ha, ka⟩ := hf.2.2 h1
  obtain ⟨b, hb, kb⟩ := hg.2.2 h2
  rw [ka] at kb
  exact hfg a b ha hb (Option.some.inj kb)

theorem openFile_posix (name : String) (flag perm : Nat) (k : Kernel) :
    (∃ e : Error, posix.openFile name flag perm k = (Except.error e, k)) ∨
    posix.openFile name flag perm k =
      (Except.ok { fd := (k.nextFd : Int) },
        { k with
          nextFd := k.nextFd + 1
          files := fun d => if d = (k.nextFd : Int) then some name else k.files d }) := by
  by_cases h : name = ""
  · left; exact ⟨Error.PathError "open" name ENOENT, by simp [posix, Kernel.openFile, h]⟩
  · right; simp [posix, Kernel.openFile, h]

theorem lockAttempt_tracks (ap : String) (f g : flock) (w : World Kernel) (a : File)
    (hfh : f.fh = some a) (hf : Tracks ap f w.kernel) (hg : Tracks ap g w.kernel)
    (hfg : Apart f g) :
    Tracks ap (f.lockAttempt posix w).1.2 (f.lockAttempt posix w).2.kernel ∧
    Tracks ap g (f.lockAttempt posix w).2.kernel ∧
    Apart (f.lockAttempt posix w).1.2 g ∧
    (g.locked = true →
      (f.lockAttempt posix w).1.1 ≠ none ∧ (f.lockAttempt posix w).1.2.locked = false) := by
  obtain ⟨hlt, hfile⟩ := hf.2.1 a hfh
  obtain ⟨e1, e2, e3, e4, e5⟩ := lockAttempt_posix f w a ap hfh hfile
  have hfh2 : (f.lockAttempt posix w).1.2.fh = some a := by rw [e1]; exact hfh
  have hap2 : (f.lockAttempt posix w).1.2.absPath = ap := by rw [e1]; exact hf.1
  refine ⟨⟨hap2, ?_, ?_⟩, ⟨hg.1, ?_, ?_⟩, ?_, ?_⟩
  · intro a2 h2
    rw [hfh2] at h2
    cases h2
    rw [e2, e3]
    exact ⟨hlt, hfile⟩
  · intro hl
    exact ⟨a, hfh2, e4 hl⟩
  · intro b hb
    rw [e2, e3]
    exact hg.2.1 b hb
  · intro hl
    obtain ⟨b, hb, kb⟩ := hg.2.2 hl
    have hne : b.fd ≠ a.fd := fun h => hfg a b hfh hb h.symm
    rw [(e5 b.fd kb hne).2.2]
    exact ⟨b, hb, kb⟩
  · intro a2 b h2 hb
    rw [hfh2] at h2
    cases h2
    exact hfg a b hfh hb
  · intro hl
    obtain ⟨b, hb, kb⟩ := hg.2.2 hl
    have hne : b.fd ≠ a.fd := fun h => hfg a b hfh hb h.symm
    exact ⟨(e5 b.fd kb hne).1, (e5 b.fd kb hne).2.1⟩

theorem Lock_tracks (ap : String) (f g : flock) (w : World Kernel)
    (hf : Tracks ap f w.kernel) (hg : Tracks ap g w.kernel) (hfg : Apart f g) :
    Tracks ap (f.Lock posix w).1.2 (f.Lock posix w).2.kernel ∧
    Tracks ap g (f.Lock posix w).2.kernel ∧
    Apart (f.Lock posix w).1.2 g ∧
    (g.locked = true →
      (f.Lock posix w).1.1 ≠ none ∧ (f.Lock posix w).1.2.locked = false) := by
  cases hl : f.locked with
  | true =>
    rw [Lock_of_locked posix f w hl]
    exact ⟨hf, hg, hfg, fun hgl => absurd ⟨hl, hgl⟩ (not_both_locked ap f g w.kernel hf hg hfg)⟩
  | false =>
    cases hfh : f.fh with
    | some a =>
      rw [Lock_of_open posix f w a hl hfh]
      exact lockAttempt_tracks ap f g w a hfh hf hg hfg
    | none =>
      rcases openFile_posix f.absPath (O_CREATE ||| O_TRUNC ||| O_RDWR) 0o600 w.kernel with
        ⟨e, he⟩ | hok
      · have ho := congrArg Prod.fst he
        have hk : (osOpenFile posix f.absPath (O_CREATE ||| O_TRUNC ||| O_RDWR) 0o600 w).2.kernel =
            w.kernel := congrArg Prod.snd he
        rw [Lock_open_error posix f w e hl hfh ho]
        simp only [hk]
        exact ⟨hf, hg, hfg, fun _ => ⟨by simp, hl⟩⟩
      · have ho := congrArg Prod.fst hok
        have hk : (osOpenFile posix f.absPath (O_CREATE ||| O_TRUNC ||| O_RDWR) 0o600 w).2.kernel =
            { w.kernel with
              nextFd := w.kernel.nextFd + 1
              files := fun d =>
                if d = (w.kernel.nextFd : Int) then some f.absPath else w.kernel.files d } :=
          congrArg Prod.snd hok
        rw [Lock_open_ok posix f w { fd := (w.kernel.nextFd : Int) } hl hfh ho]
        apply lockAttempt_tracks ap _ g _ { fd := (w.kernel.nextFd : Int) } rfl
        · rw [hk]
          refine ⟨hf.1, ?_, ?_⟩
          · intro a ha
            simp only [Option.some.injEq] at ha
            subst ha
            simp [hf.1]
          · intro h
            simp [hl] at h
        · rw [hk]
          refine ⟨hg.1, ?_, ?_⟩
          · intro b hb
            obtain ⟨h1, h2⟩ := hg.2.1 b hb
            have hne : b.fd ≠ (w.kernel.nextFd : Int) := by omega
            simp only [hne, if_false]
            exact ⟨by push_cast; omega, h2⟩
          · intro h
            exact hg.2.2 h
        · intro a b ha hb
          simp only [Option.some.injEq] at ha
          subst ha
          obtain ⟨h1, _⟩ := hg.2.1 b hb
          simp only
          omega

theorem unlock_close_posix (k : Kernel) (fd : Int) (ap : String) (hfile : k.files fd = some ap) :
    (posix.flock fd LOCK_UN k).1 = none ∧
    (posix.close fd (posix.flock fd LOCK_UN k).2).2.nextFd = k.nextFd ∧
    ∀ d : Int, d ≠ fd → (posix.close fd (posix.flock fd LOCK_UN k).2).2.files d = k.files d := by
  have h8 : ¬ (LOCK_UN = LOCK_EX ||| LOCK_NB) := by decide
  simp only [posix, Kernel.flock, hfile, h8, if_false, if_true, Kernel.close]
  refine ⟨trivial, trivial, ?_⟩
  intro d hd
  simp [hd]

theorem Unlock_tracks (ap : String) (f g : flock) (w : World Kernel)
    (hf : Tracks ap f w.kernel) (hg : Tracks ap g w.kernel) (hfg : Apart f g) :
    Tracks ap (f.Unlock posix w).1.2 (f.Unlock posix w).2.kernel ∧
    Tracks ap g (f.Unlock posix w).2.kernel ∧
    Apart (f.Unlock posix w).1.2 g := by
  cases hl : f.locked with
  | false =>
    rw [Unlock_short posix f w (Or.inl hl)]
    exact ⟨hf, hg, hfg⟩
  | true =>
    obtain ⟨a, ha, ka⟩ := hf.2.2 hl
    obtain ⟨hlt, hfile⟩ := hf.2.1 a ha
    obtain ⟨u1, u2, u3⟩ := unlock_close_posix w.kernel a.fd ap hfile
    have hgl : g.locked = false := by
      cases h : g.locked with
      | false => rfl
      | true => exact absurd ⟨hl, h⟩ (not_both_locked ap f g w.kernel hf hg hfg)
    rw [Unlock_ok posix f w a hl ha u1]
    refine ⟨⟨hf.1, ?_, ?_⟩, ⟨hg.1, ?_, ?_⟩, ?_⟩
    · intro a2 h2
      simp at h2
    · intro h
      simp at h
    · intro b hb
      obtain ⟨h1, h2⟩ := hg.2.1 b hb
      have hne : b.fd ≠ a.fd := fun h => hfg a b ha hb h.symm
      have e2 : (fileClose posix a.fd (syscallFlock posix a.fd LOCK_UN w).2).2.kernel.nextFd =
          w.kernel.nextFd := u2
      have e3 : (fileClose posix a.fd (syscallFlock posix a.fd LOCK_UN w).2).2.kernel.files b.fd =
          w.kernel.files b.fd := u3 b.fd hne
      rw [e2, e3]
      exact ⟨h1, h2⟩
    · intro h
      rw [hgl] at h
      cases h
    · intro a2 b h2
      simp at h2

theorem Apart_symm (f g : flock) (h : Apart f g) : Apart g f :=
  fun a b ha hb e => h b a hb ha e.symm

theorem step_tracks (ap : String) (f g : flock) (w : World Kernel) (op : Op)
    (hf : Tracks ap f w.kernel) (hg : Tracks ap g w.kernel) (hfg : Apart f g) :
    Tracks ap (step posix (f, w) op).1 (step posix (f, w) op).2.kernel ∧
    Tracks ap g (step posix (f, w) op).2.kernel ∧
    Apart (step posix (f, w) op).1 g := by
  cases op with
  | Lock =>
    obtain ⟨h1, h2, h3, _⟩ := Lock_tracks ap f g w hf hg hfg
    exact ⟨h1, h2, h3⟩
  | Unlock => exact Unlock_tracks ap f g w hf hg hfg
  | Locked => exact ⟨hf, hg, hfg⟩
  | Path => exact ⟨hf, hg, hfg⟩
  | String => exact ⟨hf, hg, hfg⟩

theorem Pair_step_tracks (ap : String) (s : Pair Kernel) (c : Who × Op)
    (h : Tracks ap s.A s.w.kernel ∧ Tracks ap s.B s.w.kernel ∧ Apart s.A s.B) :
    Tracks ap (Pair.step posix s c).A (Pair.step posix s c).w.kernel ∧
    Tracks ap (Pair.step posix s c).B (Pair.step posix s c).w.kernel ∧
    Apart (Pair.step posix s c).A (Pair.step posix s c).B := by
  obtain ⟨hA, hB, hAB⟩ := h
  obtain ⟨who, op⟩ := c
  cases who with
  | A =>
    obtain ⟨h1, h2, h3⟩ := step_tracks ap s.A s.B s.w op hA hB hAB
    exact ⟨h1, h2, h3⟩
  | B =>
    obtain ⟨h1, h2, h3⟩ := step_tracks ap s.B s.A s.w op hB hA (Apart_symm _ _ hAB)
    exact ⟨h2, h1, Apart_symm _ _ h3⟩

theorem Pair_run_tracks (ap : String) (cs : List (Who × Op)) (s : Pair Kernel)
    (h : Tracks ap s.A s.w.kernel ∧ Tracks ap s.B s.w.kernel ∧ Apart s.A s.B) :
    Tracks ap (Pair.run posix cs s).A (Pair.run posix cs s).w.kernel ∧
    Tracks ap (Pair.run posix cs s).B (Pair.run posix cs s).w.kernel ∧
    Apart (Pair.run posix cs s).A (Pair.run posix cs s).B := by
  induction cs generalizing s with
  | nil => exact h
  | cons c cs ih => exact ih (Pair.step posix s c) (Pair_step_tracks ap s c h)

/-- C1. Mutual exclusion: on the model kernel, which gives the exclusive
non-blocking lock of a file to at most one open descriptor at a time, take any
path `p`, any starting kernel state and two handles `A` and `B` created with
`NewFlock(p)`. In every state reached by any interleaving of `Lock`, `Unlock`,
`Locked`, `Path` and `String` calls on `A` and `B`, the two handles are not both
locked; and whenever one of them is locked (its `Lock` succeeded and it has not
been unlocked successfully since), a `Lock` call on the other returns a non-nil
error and leaves the other's `locked` flag false. -/
theorem mutual_exclusion (p : String) (w : World Kernel) (cs : List (Who × Op)) :
    ¬ ((Pair.run posix cs (Pair.start posix p w)).A.locked = true ∧
        (Pair.run posix cs (Pair.start posix p w)).B.locked = true) ∧
    ((Pair.run posix cs (Pair.start posix p w)).A.locked = true →
      ((Pair.run posix cs (Pair.start posix p w)).B.Lock posix
          (Pair.run posix cs (Pair.start posix p w)).w).1.1 ≠ none ∧
      ((Pair.run posix cs (Pair.start posix p w)).B.Lock posix
          (Pair.run posix cs (Pair.start posix p w)).w).1.2.locked = false) ∧
    ((Pair.run posix cs (Pair.start posix p w)).B.locked = true →
      ((Pair.run posix cs (Pair.start posix p w)).A.Lock posix
          (Pair.run posix cs (Pair.start posix p w)).w).1.1 ≠ none ∧
      ((Pair.run posix cs (Pair.start posix p w)).A.Lock posix
          (Pair.run posix cs (Pair.start posix p w)).w).1.2.locked = false) := by
  have h0 : Tracks (posix.abs p w.kernel).1 (Pair.start posix p w).A (Pair.start posix p w).w.kernel ∧
      Tracks (posix.abs p w.kernel).1 (Pair.start posix p w).B (Pair.start posix p w).w.kernel ∧
      Apart (Pair.start posix p w).A (Pair.start posix p w).B := by
    refine ⟨⟨rfl, ?_, ?_⟩, ⟨rfl, ?_, ?_⟩, ?_⟩
    · intro a h; simp [Pair.start, NewFlock] at h
    · intro h; simp [Pair.start, NewFlock] at h
    · intro a h; simp [Pair.start, NewFlock] at h
    · intro h; simp [Pair.start, NewFlock] at h
    · intro a b h; simp [Pair.start, NewFlock] at h
  obtain ⟨hA, hB, hAB⟩ := Pair_run_tracks _ cs _ h0
  refine ⟨not_both_locked _ _ _ _ hA hB hAB, ?_, ?_⟩
  · exact (Lock_tracks _ _ _ _ hB hA (Apart_symm _ _ hAB)).2.2.2
  · exact (Lock_tracks _ _ _ _ hA hB hAB).2.2.2

theorem mutual_exclusion_witness :
    (Pair.run posix [(Who.A, Op.Lock), (Who.B, Op.Lock)]
        (Pair.start posix "foo.lock" w0)).A.locked = true ∧
    ((Pair.run posix [(Who.A, Op.Lock), (Who.B, Op.Lock)]
        (Pair.start posix "foo.lock" w0)).B.Lock posix
      (Pair.run posix [(Who.A, Op.Lock), (Who.B, Op.Lock)]
        (Pair.start posix "foo.lock" w0)).w).1.1 ≠ none ∧
    ((Pair.run posix [(Who.A, Op.Lock), (Who.B, Op.Lock)]
        (Pair.start posix "foo.lock" w0)).B.Lock posix
      (Pair.run posix [(Who.A, Op.Lock), (Who.B, Op.Lock)]
        (Pair.start posix "foo.lock" w0)).w).1.2.locked = false :=
  ⟨by decide,
    (mutual_exclusion "foo.lock" w0 [(Who.A, Op.Lock), (Who.B, Op.Lock)]).2.1 (by decide)⟩

end FileLock
